import Mathlib

/-
Verification of the irishep convenience layer (spark-hep-query).

Shallow embedding of:
  - src/irishep/datasets/dataset.py   (Dataset, select_columns, regex column matching)
  - src/irishep/analysis/accumulator.py (Accumulator.addInPlace)
  - src/irishep/config.py             (Config)
  - src/irishep/app.py                (App.datasets / App.read_dataset)

The Spark engine (pyspark DataFrame) is modelled as a table: an ordered schema
of (column name, type-name string) pairs plus rows of values.  Engine
operations used by the source (select, withColumn, cast, dtypes, columns) are
given executable semantics below; AnalysisException is modelled as Except.error.
-/

/-- A cell value of the modelled Spark dataframe.  Only the value shapes the
repository's code path exercises are included: strings (the dataset tag),
integers, boolean arrays and integer arrays (the one cast the code performs). -/
inductive Value where
  | str : String → Value
  | int : Int → Value
  | boolArr : List Bool → Value
  | intArr : List Int → Value
deriving DecidableEq

/-- The modelled pyspark DataFrame: ordered (name, type) schema plus rows. -/
structure DataFrame where
  schema : List (String × String)
  rows : List (List Value)
deriving DecidableEq

/-- Index of the first schema entry with the given column name. -/
def lookupIdx (n : String) : List (String × String) → Option Nat
  | [] => none
  | p :: ps => if p.1 = n then some 0 else (lookupIdx n ps).map (fun i => i + 1)

/-- Declared type string of the first schema entry with the given name. -/
def lookupType (n : String) : List (String × String) → Option String
  | [] => none
  | p :: ps => if p.1 = n then some p.2 else lookupType n ps

/-- pyspark DataFrame.columns: the list of column names. -/
def DataFrame.columns (df : DataFrame) : List String :=
  df.schema.map Prod.fst

/-- pyspark DataFrame.dtypes: (name, type string) pairs. -/
def DataFrame.dtypes (df : DataFrame) : List (String × String) :=
  df.schema

/-- A pyspark Column expression as used by the source: a named column
reference, or a cast of one to a type given by a DDL type string. -/
inductive Col where
  | ref : String → Col
  | cast : Col → String → Col
deriving DecidableEq

/-- Name under which a column expression appears in a select's output schema.
Spark's Column.cast keeps the underlying column's name. -/
def colName : Col → String
  | Col.ref n => n
  | Col.cast c _ => colName c

/-- Spark parses a DDL type string and re-renders it without the incidental
whitespace, so the cast target "array<int >" is reported as "array<int>".
Modelled by dropping space characters. -/
def normalizeTypeName (s : String) : String :=
  String.mk (s.toList.filter (fun c => c ≠ ' '))

/-- Value-level semantics of the one cast the source performs
(array<boolean> to array<int >): booleans widen to 1/0.  Casts the code
never issues leave the value unchanged. -/
def castValue (t : String) (v : Value) : Value :=
  if normalizeTypeName t = "array<int>" then
    match v with
    | Value.boolArr bs => Value.intArr (bs.map (fun b => if b then 1 else 0))
    | w => w
  else v

/-- Whether a column expression resolves against a dataframe's schema. -/
def colResolves (df : DataFrame) : Col → Bool
  | Col.ref n => (lookupIdx n df.schema).isSome
  | Col.cast c _ => colResolves df c

/-- Output type of a column expression. -/
def colOutType (df : DataFrame) : Col → Option String
  | Col.ref n => lookupType n df.schema
  | Col.cast c t => (colOutType df c).map (fun _ => normalizeTypeName t)

/-- Evaluate a column expression on one row (total; a resolution failure,
which DataFrame.select rules out beforehand, yields a dummy value). -/
def evalColD (df : DataFrame) (row : List Value) : Col → Value
  | Col.ref n =>
    match lookupIdx n df.schema with
    | some i => row.getD i (Value.int 0)
    | none => Value.int 0
  | Col.cast c t => castValue t (evalColD df row c)

/-- pyspark DataFrame.select.  An unresolvable column raises
AnalysisException ("column not found"), modelled as Except.error. -/
def DataFrame.select (df : DataFrame) (cs : List Col) : Except String DataFrame :=
  if cs.all (fun c => colResolves df c) then
    Except.ok
      ⟨cs.map (fun c => (colName c, (colOutType df c).getD "")),
       df.rows.map (fun r => cs.map (fun c => evalColD df r c))⟩
  else Except.error "column not found"

/-- Type string of pyspark lit(v) for the literal shapes that occur. -/
def litType : Value → String
  | Value.str _ => "string"
  | Value.int _ => "bigint"
  | Value.boolArr _ => "array<boolean>"
  | Value.intArr _ => "array<int>"

/-- pyspark DataFrame.withColumn with a literal value: replaces the column in
place when the name exists, otherwise appends it. -/
def DataFrame.withColumn (df : DataFrame) (n : String) (v : Value) : DataFrame :=
  if n ∈ DataFrame.columns df then
    ⟨df.schema.map (fun p => if p.1 = n then (n, litType v) else p),
     df.rows.map (fun r => (df.schema.zip r).map (fun q => if q.1.1 = n then v else q.2))⟩
  else
    ⟨df.schema ++ [(n, litType v)], df.rows.map (fun r => r ++ [v])⟩

/-- Dataset: a named wrapper around a dataframe (dataset.py). -/
structure Dataset where
  name : String
  dataframe : DataFrame
deriving DecidableEq

/-- Dataset.__init__ (dataset.py lines 56-62): tag the table with a constant
"dataset" column unless one is already present. -/
def Dataset.init (name : String) (dataframe : DataFrame) : Dataset :=
  if "dataset" ∈ DataFrame.columns dataframe then ⟨name, dataframe⟩
  else ⟨name, DataFrame.withColumn dataframe "dataset" (Value.str name)⟩

/-- Dataset.columns property. -/
def Dataset.columns (ds : Dataset) : List String :=
  DataFrame.columns ds.dataframe

/-- Dataset.columns_with_types property (dataframe.dtypes). -/
def Dataset.columns_with_types (ds : Dataset) : List (String × String) :=
  DataFrame.dtypes ds.dataframe

/-- The pyarrow_column_coverters table (dataset.py lines 39-41, source
spelling kept): the single entry casts array<boolean> to "array<int >". -/
def pyarrow_column_coverters : List (String × (Col → Col)) :=
  [("array<boolean>", fun c => Col.cast c "array<int >")]

/-- Dataset._pyarrow_compatble_column (dataset.py lines 43-54): apply the
converter when the type is a key of the table, else pass through. -/
def pyarrow_compatble_column (col : Col) (col_type : String) : Col :=
  match pyarrow_column_coverters.find? (fun p => p.1 = col_type) with
  | some p => p.2 col
  | none => col

/-- The four identifying columns select_columns always retains. -/
def retainedCols : List String :=
  ["dataset", "run", "luminosityBlock", "event"]

/-- Python set(columns).union(retained) turned back into a list.  The Python
set's iteration order is unspecified; it is modelled as a deterministic
duplicate-free ordering of the same set of names. -/
def pySetUnion (xs ys : List String) : List String :=
  (xs ++ ys).dedup

/-- Dataset.select_columns (dataset.py lines 119-138): project onto the
requested columns plus the retained identifying columns, then re-select from
the original dataframe with pyarrow-compatibility casts applied per the
projected dtypes, and wrap the result in a new Dataset with the same name. -/
def Dataset.select_columns (ds : Dataset) (columns : List String) : Except String Dataset :=
  match DataFrame.select ds.dataframe ((pySetUnion columns retainedCols).map Col.ref) with
  | Except.error e => Except.error e
  | Except.ok projected =>
    match DataFrame.select ds.dataframe
        ((DataFrame.dtypes projected).map (fun c => pyarrow_compatble_column (Col.ref c.1) c.2)) with
    | Except.error e => Except.error e
    | Except.ok df2 => Except.ok (Dataset.init ds.name df2)

/-- Dataset.count_column_for_physics_object. -/
def count_column_for_physics_object (physics_object : String) : String :=
  "n" ++ physics_object

/-
columns_for_physics_objects (dataset.py lines 83-107) builds
  "(" + "(g1)|(g2)|...|(gk)_.*" + ")|(" + "(ng1)|...|(ngk)" + ")"
and keeps the columns on which re.match succeeds.  Since alternation binds
loosest, the "_.*" tail attaches only to the LAST group alternative, and
re.match succeeds on any match of a PREFIX of the column.  For group names
free of regex metacharacters (the convention; the spec flags unescaped input
as a latent defect) the match semantics is exactly the two predicates below.
-/

/-- Prefix test on strings, computed structurally on their character lists. -/
def strStarts (p s : String) : Bool :=
  p.toList.isPrefixOf s.toList

/-- Semantics of re.match for "(g1)|(g2)|...|(gk)_.*": some non-last group is
a prefix of the column, or the last group followed by an underscore is.  For
the empty group list the generated pattern is "()_.*". -/
def objAltMatches : List String → String → Bool
  | [], col => strStarts "_" col
  | [g], col => strStarts (g ++ "_") col
  | g :: g2 :: gs, col => strStarts g col || objAltMatches (g2 :: gs) col

/-- Semantics of re.match for "(ng1)|(ng2)|...|(ngk)": some count-column name
"n" + g is a prefix of the column.  For the empty group list the generated
pattern is "()", which matches everything. -/
def countAltMatches : List String → String → Bool
  | [], _ => true
  | g :: gs, col => (g :: gs).any (fun x => strStarts (count_column_for_physics_object x) col)

/-- Dataset.columns_for_physics_objects, as a function of the column list. -/
def columns_for_physics_objects (physics_objects : List String) (columns : List String) : List String :=
  columns.filter (fun col => objAltMatches physics_objects col || countAltMatches physics_objects col)

/-- Modelled from the spec's words for claim C1 (the qualification predicate
the claim asserts): a column qualifies iff it equals the literal count-column
name "n" + g for some requested group g, or starts with g followed by an
underscore.  Used only for comparison with the source-derived definition. -/
def spec_qualifies (physics_objects : List String) (col : String) : Bool :=
  physics_objects.any (fun g => col = "n" ++ g || strStarts (g ++ "_") col)

/-
Accumulator (accumulator.py).  addInPlace branches on Python truthiness of
the existing value.  The Python values this adapter meets are modelled as:
None (the uninitialized sentinel), numbers, plain lists (+= extends), and
histogram objects (+= adds bin-wise; such objects define no __bool__ and are
always truthy).  A Python TypeError from += on incompatible operands is
modelled as Option.none.
-/

/-- A Python value as seen by the accumulator adapter. -/
inductive PyValue where
  | pynone : PyValue
  | pyint : Int → PyValue
  | pylist : List Int → PyValue
  | pyhist : List Int → PyValue
deriving DecidableEq

/-- Python truthiness: None is falsy, numbers are falsy iff zero, lists are
falsy iff empty, histogram objects (no __bool__/__len__) are always truthy. -/
def truthy : PyValue → Bool
  | PyValue.pynone => false
  | PyValue.pyint n => decide (n ≠ 0)
  | PyValue.pylist xs => decide (xs ≠ [])
  | PyValue.pyhist _ => true

/-- Python's += on the modelled values: numeric addition, list extension,
bin-wise histogram addition (defined for equal bin counts); anything else
raises (none). -/
def iadd : PyValue → PyValue → Option PyValue
  | PyValue.pyint m, PyValue.pyint n => some (PyValue.pyint (m + n))
  | PyValue.pylist xs, PyValue.pylist ys => some (PyValue.pylist (xs ++ ys))
  | PyValue.pyhist xs, PyValue.pyhist ys =>
    if xs.length = ys.length
    then some (PyValue.pyhist (List.zipWith (fun a b => a + b) xs ys))
    else none
  | _, _ => none

/-- Accumulator.addInPlace (accumulator.py lines 46-61): if val1 is truthy,
val1 += val2, else val1 = val2; return val1. -/
def addInPlace (val1 val2 : PyValue) : Option PyValue :=
  if truthy val1 then iadd val1 val2 else some val2

/-- Accumulator.zero: returns the initial value unchanged. -/
def accumulatorZero (value : PyValue) : PyValue :=
  value

/-
Config and App (config.py, app.py).  The DatasetManager and Executor
collaborators are external; their observable behavior is modelled as state
(the provisioned flag, the name-to-files mapping) and opaque operation
functions supplied as parameters.
-/

/-- Observable state of the external DatasetManager collaborator. -/
structure DatasetManagerState where
  provisioned : Bool
  fileLists : String → List String

/-- Behaviors of the external collaborators: the dataset manager's provision
operation (it mutates the manager) and the executor's read_files. -/
structure ExternalOps where
  provisionOp : DatasetManagerState → DatasetManagerState
  read_files : String → List String → Dataset

/-- Config (config.py lines 46-55): the stored options. -/
structure Config where
  dataset_manager : Option DatasetManagerState
  master : String
  app_name : String
  num_partitions : Int

/-- Config.__init__ with every argument supplied explicitly. -/
def configInit (dataset_manager : Option DatasetManagerState) (master : String)
    (app_name : String) (num_partitions : Int) : Config :=
  ⟨dataset_manager, master, app_name, num_partitions⟩

/-- Config.__init__ with only the optional dataset manager supplied: the
remaining arguments take their Python default values. -/
def configWithDefaults (dataset_manager : Option DatasetManagerState) : Config :=
  configInit dataset_manager "local" "spark-hep" 10

/-- The App state that read_dataset can change: its dataset manager. -/
structure AppState where
  dataset_manager : DatasetManagerState

/-- App.datasets property (app.py lines 36-44).  Returns the new app state,
the manager handed back, and whether provision was invoked. -/
def App.datasets (ops : ExternalOps) (app : AppState) : AppState × DatasetManagerState × Bool :=
  if app.dataset_manager.provisioned then (app, app.dataset_manager, false)
  else
    let dm := ops.provisionOp app.dataset_manager
    (⟨dm⟩, dm, true)

/-- App.read_dataset (app.py lines 46-58): fetch the file list for the name
from the (possibly freshly provisioned) manager and hand it to the executor.
Returns the new app state, the dataset, and whether provision was invoked. -/
def App.read_dataset (ops : ExternalOps) (app : AppState) (dataset_name : String) :
    AppState × Dataset × Bool :=
  let r := App.datasets ops app
  let files := r.2.1.fileLists dataset_name
  (r.1, ops.read_files dataset_name files, r.2.2)

/-
Concrete data used by the witness theorems.
-/

/-- A concrete source table: the three identifying event columns, a float
array column and a boolean array column. -/
def dfW : DataFrame :=
  ⟨[("run", "bigint"), ("luminosityBlock", "bigint"), ("event", "bigint"),
    ("E_pt", "array<int>"), ("HLT_x", "array<boolean>")],
   [[Value.int 1, Value.int 2, Value.int 3, Value.intArr [7], Value.boolArr [true, false]]]⟩

/-- The concrete table wrapped as a Dataset (this adds the dataset tag). -/
def dsW : Dataset :=
  Dataset.init "DY" dfW

/-- A concrete requested column list. -/
def reqW : List String :=
  ["E_pt", "HLT_x"]

/-- The concrete projection result of select_columns on the witness data. -/
def ds1W : Dataset :=
  (Dataset.select_columns dsW reqW).toOption.getD dsW

/-- A concrete table without a dataset column. -/
def dfNoDs : DataFrame :=
  ⟨[("run", "bigint")], [[Value.int 1], [Value.int 2]]⟩

/-- Concrete external collaborators: provision sets the provisioned flag, and
read_files builds a dataset named after the request. -/
def opsW : ExternalOps :=
  ⟨fun s => ⟨true, s.fileLists⟩, fun n _ => ⟨n, ⟨[], []⟩⟩⟩

/-- A concrete app state whose manager is not yet provisioned. -/
def appW : AppState :=
  ⟨⟨false, fun _ => ["f1.root", "f2.root"]⟩⟩

/-
Derived descriptions of the projection select_columns performs, used to state
its observable result.
-/

/-- Declared type of a named column of a dataframe (defaulted). -/
def typeIn (df : DataFrame) (n : String) : String :=
  (lookupType n df.schema).getD ""

/-- The column expression select_columns emits for the named column: the
pyarrow-compatibility rewrite of a plain reference at its declared type. -/
def emittedCol (df : DataFrame) (n : String) : Col :=
  pyarrow_compatble_column (Col.ref n) (typeIn df n)

/-- Declared output type of the emitted column expression (defaulted). -/
def outTy (df : DataFrame) (n : String) : String :=
  (colOutType df (emittedCol df n)).getD ""

/-- Schema of a successful select_columns result, as a function of the
effective column-name list. -/
def projSchema (df : DataFrame) (names : List String) : List (String × String) :=
  names.map (fun n => (n, outTy df n))

/-- Rows of a successful select_columns result. -/
def projRows (df : DataFrame) (names : List String) : List (List Value) :=
  df.rows.map (fun r => names.map (fun n => evalColD df r (emittedCol df n)))

/-
Helper lemmas.
-/

theorem map_congr_mem {α β : Type} (l : List α) (f g : α → β)
    (h : ∀ a ∈ l, f a = g a) : l.map f = l.map g := by
  induction l with
  | nil => rfl
  | cons a as ih =>
    have h1 : f a = g a := h a (List.mem_cons_self a as)
    have h2 : as.map f = as.map g := ih (fun x hx => h x (List.mem_cons_of_mem a hx))
    simp [List.map_cons, h1, h2]

theorem lookupType_map_self {τ : String → String} (L : List String) (n : String)
    (h : n ∈ L) : lookupType n (L.map (fun m => (m, τ m))) = some (τ n) := by
  induction L with
  | nil => cases h
  | cons a as ih =>
    by_cases han : a = n
    · subst han
      simp [lookupType]
    · have hn : n ∈ as := by
        rcases List.mem_cons.mp h with h1 | h1
        · exact absurd h1.symm han
        · exact h1
      simp [lookupType, han, ih hn]

theorem lookup_getD {τ : String → String} (f : String → Value) (L : List String)
    (n : String) (h : n ∈ L) :
    ∃ i, lookupIdx n (L.map (fun m => (m, τ m))) = some i ∧
      (L.map f).getD i (Value.int 0) = f n := by
  induction L with
  | nil => cases h
  | cons a as ih =>
    by_cases han : a = n
    · subst han
      exact ⟨0, by simp [lookupIdx], by simp⟩
    · have hn : n ∈ as := by
        rcases List.mem_cons.mp h with h1 | h1
        · exact absurd h1.symm han
        · exact h1
      obtain ⟨i, h1, h2⟩ := ih hn
      refine ⟨i + 1, ?_, ?_⟩
      · simp [lookupIdx, han, h1]
      · simpa [List.getD_cons_succ] using h2

theorem lookupIdx_isSome_iff (n : String) (s : List (String × String)) :
    (lookupIdx n s).isSome = true ↔ n ∈ s.map Prod.fst := by
  induction s with
  | nil => simp [lookupIdx]
  | cons p ps ih =>
    by_cases hp : p.1 = n
    · simp [lookupIdx, hp]
    · simp only [lookupIdx, hp, if_false, List.map_cons, List.mem_cons]
      have hm : (Option.map (fun i => i + 1) (lookupIdx n ps)).isSome = (lookupIdx n ps).isSome := by
        cases lookupIdx n ps <;> rfl
      rw [hm, ih]
      constructor
      · exact Or.inr
      · intro h
        rcases h with h1 | h1
        · exact absurd h1.symm hp
        · exact h1

theorem lookupType_isSome_iff (n : String) (s : List (String × String)) :
    (lookupType n s).isSome = true ↔ n ∈ s.map Prod.fst := by
  induction s with
  | nil => simp [lookupType]
  | cons p ps ih =>
    by_cases hp : p.1 = n
    · simp [lookupType, hp]
    · simp only [lookupType, hp, if_false, List.map_cons, List.mem_cons]
      rw [ih]
      constructor
      · exact Or.inr
      · intro h
        rcases h with h1 | h1
        · exact absurd h1.symm hp
        · exact h1

theorem opt_eq_some_getD {α : Type} (o : Option α) (d : α) (h : o.isSome = true) :
    o = some (o.getD d) := by
  cases o with
  | none => cases h
  | some v => rfl

theorem select_eq_ok (df : DataFrame) (cs : List Col)
    (h : cs.all (fun c => colResolves df c) = true) :
    DataFrame.select df cs = Except.ok
      ⟨cs.map (fun c => (colName c, (colOutType df c).getD "")),
       df.rows.map (fun r => cs.map (fun c => evalColD df r c))⟩ := by
  unfold DataFrame.select
  rw [if_pos h]

theorem select_eq_error (df : DataFrame) (cs : List Col)
    (h : cs.all (fun c => colResolves df c) = false) :
    DataFrame.select df cs = Except.error "column not found" := by
  unfold DataFrame.select
  rw [if_neg]
  simp [h]

theorem compat_of_eq (c : Col) :
    pyarrow_compatble_column c "array<boolean>" = Col.cast c "array<int >" := by
  rfl

theorem compat_of_ne (c : Col) (t : String) (h : t ≠ "array<boolean>") :
    pyarrow_compatble_column c t = c := by
  unfold pyarrow_compatble_column pyarrow_column_coverters
  have h2 : ¬ ("array<boolean>" = t) := fun hh => h hh.symm
  simp [List.find?, h2]

theorem colName_compat (n : String) (t : String) :
    colName (pyarrow_compatble_column (Col.ref n) t) = n := by
  by_cases ht : t = "array<boolean>"
  · subst ht
    rfl
  · rw [compat_of_ne _ _ ht]
    rfl

theorem colResolves_compat (df : DataFrame) (n : String) (t : String) :
    colResolves df (pyarrow_compatble_column (Col.ref n) t) = colResolves df (Col.ref n) := by
  by_cases ht : t = "array<boolean>"
  · subst ht
    rfl
  · rw [compat_of_ne _ _ ht]

theorem init_of_mem (n : String) (df : DataFrame)
    (h : "dataset" ∈ DataFrame.columns df) : Dataset.init n df = ⟨n, df⟩ := by
  unfold Dataset.init
  rw [if_pos h]

theorem select_columns_resolves (ds : Dataset) (req : List String) (ds1 : Dataset)
    (h : Dataset.select_columns ds req = Except.ok ds1) :
    ∀ n ∈ pySetUnion req retainedCols, (lookupIdx n ds.dataframe.schema).isSome = true := by
  intro n hn
  cases hall : ((pySetUnion req retainedCols).map Col.ref).all
      (fun c => colResolves ds.dataframe c) with
  | true =>
    simpa [colResolves] using List.all_eq_true.mp hall (Col.ref n) (List.mem_map_of_mem Col.ref hn)
  | false =>
    unfold Dataset.select_columns at h
    rw [select_eq_error _ _ hall] at h
    cases h

theorem select_columns_eval (ds : Dataset) (req : List String)
    (h1 : ∀ n ∈ pySetUnion req retainedCols, (lookupIdx n ds.dataframe.schema).isSome = true) :
    Dataset.select_columns ds req =
      Except.ok ⟨ds.name, ⟨projSchema ds.dataframe (pySetUnion req retainedCols),
                           projRows ds.dataframe (pySetUnion req retainedCols)⟩⟩ := by
  unfold Dataset.select_columns
  have hall : ((pySetUnion req retainedCols).map Col.ref).all
      (fun c => colResolves ds.dataframe c) = true := by
    rw [List.all_eq_true]
    intro c hc
    obtain ⟨n, hn, rfl⟩ := List.mem_map.mp hc
    simpa [colResolves] using h1 n hn
  rw [select_eq_ok _ _ hall]
  dsimp only [DataFrame.dtypes]
  have hcols3 : (((pySetUnion req retainedCols).map Col.ref).map
        (fun c => (colName c, (colOutType ds.dataframe c).getD ""))).map
        (fun c => pyarrow_compatble_column (Col.ref c.1) c.2) =
      (pySetUnion req retainedCols).map (fun n => emittedCol ds.dataframe n) := by
    rw [List.map_map, List.map_map]
    rfl
  rw [hcols3]
  have hall2 : ((pySetUnion req retainedCols).map (fun n => emittedCol ds.dataframe n)).all
      (fun c => colResolves ds.dataframe c) = true := by
    rw [List.all_eq_true]
    intro c hc
    obtain ⟨n, hn, rfl⟩ := List.mem_map.mp hc
    simpa [emittedCol, colResolves_compat, colResolves] using h1 n hn
  rw [select_eq_ok _ _ hall2]
  dsimp only
  have hschema : ((pySetUnion req retainedCols).map (fun n => emittedCol ds.dataframe n)).map
        (fun c => (colName c, (colOutType ds.dataframe c).getD "")) =
      projSchema ds.dataframe (pySetUnion req retainedCols) := by
    rw [List.map_map]
    apply map_congr_mem
    intro n _
    show (colName (emittedCol ds.dataframe n),
          (colOutType ds.dataframe (emittedCol ds.dataframe n)).getD "") =
        (n, outTy ds.dataframe n)
    simp only [emittedCol, outTy]
    rw [colName_compat]
  have hrows : ds.dataframe.rows.map (fun r =>
        ((pySetUnion req retainedCols).map (fun n => emittedCol ds.dataframe n)).map
          (fun c => evalColD ds.dataframe r c)) =
      projRows ds.dataframe (pySetUnion req retainedCols) := by
    apply map_congr_mem
    intro r _
    rw [List.map_map]
    rfl
  rw [hschema, hrows]
  have hmem : "dataset" ∈ DataFrame.columns
      ⟨projSchema ds.dataframe (pySetUnion req retainedCols),
       projRows ds.dataframe (pySetUnion req retainedCols)⟩ := by
    show "dataset" ∈ (projSchema ds.dataframe (pySetUnion req retainedCols)).map Prod.fst
    have hfst : (projSchema ds.dataframe (pySetUnion req retainedCols)).map Prod.fst =
        pySetUnion req retainedCols := by
      simp only [projSchema, List.map_map]
      show (pySetUnion req retainedCols).map id = pySetUnion req retainedCols
      exact List.map_id _
    rw [hfst]
    simp [pySetUnion, retainedCols]
  rw [init_of_mem _ _ hmem]

theorem select_columns_ok_shape (ds : Dataset) (req : List String) (ds1 : Dataset)
    (h : Dataset.select_columns ds req = Except.ok ds1) :
    ds1 = ⟨ds.name, ⟨projSchema ds.dataframe (pySetUnion req retainedCols),
                     projRows ds.dataframe (pySetUnion req retainedCols)⟩⟩ ∧
    ∀ n ∈ pySetUnion req retainedCols, (lookupIdx n ds.dataframe.schema).isSome = true := by
  have hres := select_columns_resolves ds req ds1 h
  have heval := select_columns_eval ds req hres
  rw [heval] at h
  injection h with h2
  exact ⟨h2.symm, hres⟩

theorem outTy_eq (df : DataFrame) (n : String)
    (hres : (lookupIdx n df.schema).isSome = true) :
    lookupType n df.schema = some (typeIn df n) ∧
    outTy df n = (if typeIn df n = "array<boolean>" then "array<int>" else typeIn df n) := by
  have hts : (lookupType n df.schema).isSome = true := by
    rw [lookupType_isSome_iff]
    exact (lookupIdx_isSome_iff n df.schema).mp hres
  have h1 : lookupType n df.schema = some (typeIn df n) := opt_eq_some_getD _ _ hts
  refine ⟨h1, ?_⟩
  by_cases ht : typeIn df n = "array<boolean>"
  · rw [if_pos ht]
    simp only [outTy, emittedCol, ht, compat_of_eq, colOutType, h1]
    rfl
  · rw [if_neg ht]
    simp only [outTy, emittedCol, compat_of_ne _ _ ht, colOutType, h1]
    rfl

theorem outTy_ne_bool (df : DataFrame) (n : String)
    (hres : (lookupIdx n df.schema).isSome = true) :
    outTy df n ≠ "array<boolean>" := by
  have h2 := (outTy_eq df n hres).2
  by_cases ht : typeIn df n = "array<boolean>"
  · rw [h2, if_pos ht]
    decide
  · rw [h2, if_neg ht]
    exact ht

theorem evalRef_map_self (df : DataFrame) (τ : String → String) (f : String → Value)
    (L : List String) (n : String) (hdf : df.schema = L.map (fun m => (m, τ m)))
    (h : n ∈ L) : evalColD df (L.map f) (Col.ref n) = f n := by
  obtain ⟨i, h1, h2⟩ := lookup_getD (τ := τ) f L n h
  show (match lookupIdx n df.schema with
        | some i => (L.map f).getD i (Value.int 0)
        | none => Value.int 0) = f n
  rw [hdf, h1]
  exact h2

theorem objAlt_cons_iff (g : String) (gs : List String) (col : String) :
    objAltMatches (g :: gs) col = true ↔
      (strStarts ((g :: gs).getLast (by simp) ++ "_") col = true ∨
       ∃ x ∈ (g :: gs).dropLast, strStarts x col = true) := by
  induction gs generalizing g with
  | nil =>
    simp [objAltMatches, List.getLast, List.dropLast]
  | cons b bs ih =>
    have hstep : objAltMatches (g :: b :: bs) col =
        (strStarts g col || objAltMatches (b :: bs) col) := rfl
    rw [hstep, Bool.or_eq_true, ih b]
    have hlast : (g :: b :: bs).getLast (by simp) = (b :: bs).getLast (by simp) :=
      List.getLast_cons (by simp)
    have hdrop : (g :: b :: bs).dropLast = g :: (b :: bs).dropLast := by
      simp [List.dropLast]
    rw [hlast, hdrop]
    constructor
    · rintro (hg | hrest | ⟨x, hx, hxp⟩)
      · exact Or.inr ⟨g, List.mem_cons_self g _, hg⟩
      · exact Or.inl hrest
      · exact Or.inr ⟨x, List.mem_cons_of_mem g hx, hxp⟩
    · rintro (hrest | ⟨x, hx, hxp⟩)
      · exact Or.inr (Or.inl hrest)
      · rcases List.mem_cons.mp hx with h1 | h1
        · subst h1
          exact Or.inl hxp
        · exact Or.inr (Or.inr ⟨x, h1, hxp⟩)

/-
Claim theorems.
-/

/-- Claim C1 (amended): for a non-empty group list G, columns_for_physics_objects
returns exactly the subset of the column list, in order and without introducing
duplicates, whose members start with "n" + g for some g in G (a prefix match,
not an equality), or start with the last group of G followed by an underscore,
or start with some non-last group of G (no underscore required, because the
"_.*" tail of the generated pattern binds only to the final alternation branch
and re.match matches a prefix). -/
theorem claim_C1 (G L : List String) (hG : G ≠ []) :
    (columns_for_physics_objects G L).Sublist L ∧
    (L.Nodup → (columns_for_physics_objects G L).Nodup) ∧
    ∀ col, col ∈ columns_for_physics_objects G L ↔
      (col ∈ L ∧
        ((∃ g ∈ G, strStarts ("n" ++ g) col = true) ∨
         strStarts (G.getLast hG ++ "_") col = true ∨
         ∃ g ∈ G.dropLast, strStarts g col = true)) := by
  obtain ⟨g, gs, rfl⟩ := List.exists_cons_of_ne_nil hG
  refine ⟨List.filter_sublist _, fun hnd => hnd.filter _, ?_⟩
  intro col
  rw [columns_for_physics_objects, List.mem_filter]
  have hcnt : countAltMatches (g :: gs) col =
      (g :: gs).any (fun x => strStarts ("n" ++ x) col) := rfl
  constructor
  · rintro ⟨hmem, hp⟩
    refine ⟨hmem, ?_⟩
    have hp2 : objAltMatches (g :: gs) col = true ∨ countAltMatches (g :: gs) col = true := by
      cases ho : objAltMatches (g :: gs) col with
      | true => exact Or.inl rfl
      | false =>
        cases hc : countAltMatches (g :: gs) col with
        | true => exact Or.inr rfl
        | false =>
          rw [ho, hc] at hp
          cases hp
    rcases hp2 with h1 | h1
    · rcases (objAlt_cons_iff g gs col).mp h1 with h2 | h2
      · exact Or.inr (Or.inl h2)
      · exact Or.inr (Or.inr h2)
    · rw [hcnt] at h1
      exact Or.inl (List.any_eq_true.mp h1)
  · rintro ⟨hmem, halt⟩
    refine ⟨hmem, ?_⟩
    show (objAltMatches (g :: gs) col || countAltMatches (g :: gs) col) = true
    rcases halt with h1 | h1 | h1
    · have h2 : countAltMatches (g :: gs) col = true := by
        rw [hcnt]
        exact List.any_eq_true.mpr h1
      rw [h2, Bool.or_true]
    · have h2 : objAltMatches (g :: gs) col = true := (objAlt_cons_iff g gs col).mpr (Or.inl h1)
      rw [h2, Bool.true_or]
    · have h2 : objAltMatches (g :: gs) col = true := (objAlt_cons_iff g gs col).mpr (Or.inr h1)
      rw [h2, Bool.true_or]

/-- Claim C1 witness: a concrete application of the amended characterization. -/
theorem claim_C1_witness :
    "nElectron" ∈ columns_for_physics_objects ["Electron"] ["nElectron", "Muon_pt"] :=
  ((claim_C1 ["Electron"] ["nElectron", "Muon_pt"] (by decide)).2.2 "nElectron").mpr
    ⟨by decide, Or.inl ⟨"Electron", by decide, by decide⟩⟩

/-- Claim C1 counterexample: with group list ["Mu"] and column list ["nMuon"],
the code keeps "nMuon" (because "nMu" is a prefix of it), while the claim's
qualification predicate (equality with "nMu", or prefix "Mu_") excludes it. -/
theorem claim_C1_counterexample :
    ¬ (columns_for_physics_objects ["Mu"] ["nMuon"] =
       List.filter (fun col => spec_qualifies ["Mu"] col) ["nMuon"]) := by
  decide

/-- Claim C2: addInPlace returns the second value when the first is the
uninitialized None sentinel, and the in-place additive merge of the two when
the first is not the sentinel (for any mergeable pair). -/
theorem claim_C2 (a b : PyValue) :
    (a = PyValue.pynone → addInPlace a b = some b) ∧
    (a ≠ PyValue.pynone → (iadd a b).isSome = true → addInPlace a b = iadd a b) := by
  constructor
  · rintro rfl
    rfl
  · intro ha hm
    cases a with
    | pynone => exact absurd rfl ha
    | pyint m =>
      cases b with
      | pynone => simp [iadd] at hm
      | pyint n =>
        by_cases hz : m = 0
        · subst hz
          simp [addInPlace, truthy, iadd]
        · simp [addInPlace, truthy, hz, iadd]
      | pylist ys => simp [iadd] at hm
      | pyhist ys => simp [iadd] at hm
    | pylist xs =>
      cases b with
      | pynone => simp [iadd] at hm
      | pyint n => simp [iadd] at hm
      | pylist ys =>
        by_cases hz : xs = []
        · subst hz
          simp [addInPlace, truthy, iadd]
        · simp [addInPlace, truthy, hz, iadd]
      | pyhist ys => simp [iadd] at hm
    | pyhist xs =>
      simp [addInPlace, truthy]

/-- Claim C2 witness: a concrete non-sentinel merge (a Python int 0, which is
falsy yet merges as the additive identity). -/
theorem claim_C2_witness :
    addInPlace (PyValue.pyint 0) (PyValue.pyint 5) = iadd (PyValue.pyint 0) (PyValue.pyint 5) :=
  (claim_C2 (PyValue.pyint 0) (PyValue.pyint 5)).2 (by decide) (by decide)

/-- Claim C3: Dataset construction uses the dataframe as-is when it already
has a "dataset" column (leaving that column untouched even if inconsistent
with the name), and otherwise appends a "dataset" column holding the name in
every row. -/
theorem claim_C3 (name : String) (df : DataFrame) :
    ("dataset" ∈ DataFrame.columns df → Dataset.init name df = ⟨name, df⟩) ∧
    ("dataset" ∉ DataFrame.columns df →
      (Dataset.init name df).dataframe.schema = df.schema ++ [("dataset", "string")] ∧
      (Dataset.init name df).dataframe.rows = df.rows.map (fun r => r ++ [Value.str name])) := by
  constructor
  · intro h
    exact init_of_mem name df h
  · intro h
    have h1 : Dataset.init name df = ⟨name, DataFrame.withColumn df "dataset" (Value.str name)⟩ := by
      unfold Dataset.init
      rw [if_neg h]
    have h2 : DataFrame.withColumn df "dataset" (Value.str name) =
        ⟨df.schema ++ [("dataset", "string")], df.rows.map (fun r => r ++ [Value.str name])⟩ := by
      unfold DataFrame.withColumn
      rw [if_neg h]
      rfl
    rw [h1, h2]
    exact ⟨rfl, rfl⟩

/-- Claim C3 witness: constructing from a table lacking a dataset column
appends the constant name column. -/
theorem claim_C3_witness :
    "dataset" ∉ DataFrame.columns dfNoDs ∧
    (Dataset.init "DY Jets" dfNoDs).dataframe.rows =
      dfNoDs.rows.map (fun r => r ++ [Value.str "DY Jets"]) :=
  ⟨by decide, ((claim_C3 "DY Jets" dfNoDs).2 (by decide)).2⟩

/-- Claim C9: Config defaults are master = "local", app_name = "spark-hep",
num_partitions = 10, and explicitly supplied option values are stored on the
instance unchanged. -/
theorem claim_C9 (dm : Option DatasetManagerState) (m a : String) (p : Int) :
    (configWithDefaults dm).master = "local" ∧
    (configWithDefaults dm).app_name = "spark-hep" ∧
    (configWithDefaults dm).num_partitions = 10 ∧
    (configInit dm m a p).dataset_manager = dm ∧
    (configInit dm m a p).master = m ∧
    (configInit dm m a p).app_name = a ∧
    (configInit dm m a p).num_partitions = p :=
  ⟨rfl, rfl, rfl, rfl, rfl, rfl, rfl⟩

/-- Claim C10: read_dataset returns exactly the executor's read_files applied
to the name and the file list obtained from the dataset manager handed back by
the datasets property; provision is invoked exactly when the provisioned flag
is false at access time, and (provision setting the flag) at most once across
the call and any later datasets access. -/
theorem claim_C10 (ops : ExternalOps) (app : AppState) (n : String)
    (hprov : ∀ s, (ops.provisionOp s).provisioned = true) :
    (App.read_dataset ops app n).2.1 =
      ops.read_files n ((App.datasets ops app).2.1.fileLists n) ∧
    ((App.read_dataset ops app n).2.2 = true ↔ app.dataset_manager.provisioned = false) ∧
    (App.datasets ops ((App.read_dataset ops app n).1)).2.2 = false := by
  by_cases hp : app.dataset_manager.provisioned = true
  · refine ⟨?_, ?_, ?_⟩ <;> simp [App.read_dataset, App.datasets, hp]
  · have hp2 : app.dataset_manager.provisioned = false := by
      cases h : app.dataset_manager.provisioned
      · rfl
      · exact absurd h hp
    refine ⟨?_, ?_, ?_⟩ <;> simp [App.read_dataset, App.datasets, hp2, hprov]

/-- Claim C10 witness: with an unprovisioned manager, provision is invoked on
the first access and not on the next. -/
theorem claim_C10_witness :
    (App.read_dataset opsW appW "DY").2.2 = true ∧
    (App.datasets opsW ((App.read_dataset opsW appW "DY").1)).2.2 = false :=
  ⟨(claim_C10 opsW appW "DY" (fun _ => rfl)).2.1.mpr rfl,
   (claim_C10 opsW appW "DY" (fun _ => rfl)).2.2⟩

theorem init_not_mem_dataframe (n : String) (df : DataFrame)
    (h : "dataset" ∉ DataFrame.columns df) :
    (Dataset.init n df).dataframe =
      ⟨df.schema ++ [("dataset", "string")], df.rows.map (fun r => r ++ [Value.str n])⟩ := by
  unfold Dataset.init
  rw [if_neg h]
  show DataFrame.withColumn df "dataset" (Value.str n) = _
  unfold DataFrame.withColumn
  rw [if_neg h]
  rfl

/-- Claim C4: the cast table has the single key "array<boolean>";
_pyarrow_compatble_column rewrites a column of that declared type to a cast
to "array<int >" and passes every other type through unchanged (never an
error), and in select_columns each selected column's declared type is mapped
accordingly in the result. -/
theorem claim_C4 (col : Col) (t : String) (ds : Dataset) (req : List String) (ds1 : Dataset) :
    (t = "array<boolean>" → pyarrow_compatble_column col t = Col.cast col "array<int >") ∧
    (t ≠ "array<boolean>" → pyarrow_compatble_column col t = col) ∧
    pyarrow_column_coverters.map Prod.fst = ["array<boolean>"] ∧
    (Dataset.select_columns ds req = Except.ok ds1 →
      ∀ n t0, n ∈ pySetUnion req retainedCols →
        lookupType n ds.dataframe.schema = some t0 →
        lookupType n ds1.dataframe.schema =
          some (if t0 = "array<boolean>" then "array<int>" else t0)) := by
  refine ⟨?_, compat_of_ne col t, rfl, ?_⟩
  · intro ht
    subst ht
    exact compat_of_eq col
  · intro h n t0 hn ht0
    obtain ⟨hds1, hres⟩ := select_columns_ok_shape ds req ds1 h
    rw [hds1]
    show lookupType n (projSchema ds.dataframe (pySetUnion req retainedCols)) = _
    simp only [projSchema]
    rw [lookupType_map_self _ _ hn]
    have h1 := (outTy_eq ds.dataframe n (hres n hn)).1
    have h2 := (outTy_eq ds.dataframe n (hres n hn)).2
    have ht : typeIn ds.dataframe n = t0 := by
      rw [h1] at ht0
      injection ht0
    rw [h2, ht]

/-- Claim C4 witness: the boolean-array column of the concrete dataset is
rewritten to a cast and its projected type is the integer-array type. -/
theorem claim_C4_witness :
    pyarrow_compatble_column (Col.ref "HLT_x") "array<boolean>" =
      Col.cast (Col.ref "HLT_x") "array<int >" ∧
    lookupType "HLT_x" ds1W.dataframe.schema = some "array<int>" := by
  refine ⟨(claim_C4 (Col.ref "HLT_x") "array<boolean>" dsW reqW ds1W).1 rfl, ?_⟩
  have h := (claim_C4 (Col.ref "HLT_x") "array<boolean>" dsW reqW ds1W).2.2.2 rfl
    "HLT_x" "array<boolean>" (by decide) (by decide)
  simpa using h

/-- Claim C5: a successful select_columns result always contains the four
identifying columns, and every constructed Dataset's table contains a
"dataset" column. -/
theorem claim_C5 (ds : Dataset) (req : List String) (ds1 : Dataset) (n : String) (df : DataFrame) :
    (Dataset.select_columns ds req = Except.ok ds1 →
      "dataset" ∈ Dataset.columns ds1 ∧ "run" ∈ Dataset.columns ds1 ∧
      "luminosityBlock" ∈ Dataset.columns ds1 ∧ "event" ∈ Dataset.columns ds1) ∧
    "dataset" ∈ Dataset.columns (Dataset.init n df) := by
  constructor
  · intro h
    obtain ⟨hds1, _⟩ := select_columns_ok_shape ds req ds1 h
    have hcols : Dataset.columns ds1 = pySetUnion req retainedCols := by
      rw [hds1]
      show (projSchema ds.dataframe (pySetUnion req retainedCols)).map Prod.fst = _
      simp only [projSchema, List.map_map]
      show (pySetUnion req retainedCols).map id = _
      exact List.map_id _
    rw [hcols]
    refine ⟨?_, ?_, ?_, ?_⟩ <;> simp [pySetUnion, retainedCols]
  · by_cases hd : "dataset" ∈ DataFrame.columns df
    · show "dataset" ∈ DataFrame.columns (Dataset.init n df).dataframe
      rw [init_of_mem n df hd]
      exact hd
    · show "dataset" ∈ DataFrame.columns (Dataset.init n df).dataframe
      rw [init_not_mem_dataframe n df hd]
      show "dataset" ∈ (df.schema ++ [("dataset", "string")]).map Prod.fst
      rw [List.map_append]
      exact List.mem_append.mpr (Or.inr (by simp))

/-- Claim C5 witness: the concrete projection retains all four identifying
columns, and construction tags a table that lacked a dataset column. -/
theorem claim_C5_witness :
    "run" ∈ Dataset.columns ds1W ∧
    "dataset" ∈ Dataset.columns (Dataset.init "x" dfNoDs) :=
  ⟨((claim_C5 dsW reqW ds1W "x" dfNoDs).1 rfl).2.1,
   (claim_C5 dsW reqW ds1W "x" dfNoDs).2⟩

/-- Claim C6: select_columns is a stable fixed point: projecting the result
of a successful select_columns again with the same requested list returns it
unchanged, because the already-cast columns' types are no longer in the cast
table. -/
theorem claim_C6 (ds : Dataset) (req : List String) (ds1 : Dataset)
    (h : Dataset.select_columns ds req = Except.ok ds1) :
    Dataset.select_columns ds1 req = Except.ok ds1 := by
  obtain ⟨hds1, hres⟩ := select_columns_ok_shape ds req ds1 h
  have hschema1 : ds1.dataframe.schema =
      (pySetUnion req retainedCols).map (fun m => (m, outTy ds.dataframe m)) := by
    rw [hds1]
    rfl
  have hrows1 : ds1.dataframe.rows = ds.dataframe.rows.map (fun r0 =>
      (pySetUnion req retainedCols).map (fun n => evalColD ds.dataframe r0 (emittedCol ds.dataframe n))) := by
    rw [hds1]
    rfl
  have hty : ∀ n ∈ pySetUnion req retainedCols,
      typeIn ds1.dataframe n = outTy ds.dataframe n := by
    intro n hn
    show (lookupType n ds1.dataframe.schema).getD "" = outTy ds.dataframe n
    rw [hschema1, lookupType_map_self _ _ hn]
    rfl
  have hcompat : ∀ n ∈ pySetUnion req retainedCols,
      emittedCol ds1.dataframe n = Col.ref n := by
    intro n hn
    show pyarrow_compatble_column (Col.ref n) (typeIn ds1.dataframe n) = Col.ref n
    rw [hty n hn]
    exact compat_of_ne _ _ (outTy_ne_bool ds.dataframe n (hres n hn))
  have hres1 : ∀ n ∈ pySetUnion req retainedCols,
      (lookupIdx n ds1.dataframe.schema).isSome = true := by
    intro n hn
    rw [lookupIdx_isSome_iff, hschema1, List.map_map]
    show n ∈ (pySetUnion req retainedCols).map id
    rw [List.map_id]
    exact hn
  have heval := select_columns_eval ds1 req hres1
  rw [heval]
  have hps : projSchema ds1.dataframe (pySetUnion req retainedCols) = ds1.dataframe.schema := by
    rw [hschema1]
    show (pySetUnion req retainedCols).map (fun n => (n, outTy ds1.dataframe n)) = _
    apply map_congr_mem
    intro n hn
    have houtty : outTy ds1.dataframe n = outTy ds.dataframe n := by
      show (colOutType ds1.dataframe (emittedCol ds1.dataframe n)).getD "" = outTy ds.dataframe n
      rw [hcompat n hn]
      show (lookupType n ds1.dataframe.schema).getD "" = outTy ds.dataframe n
      rw [hschema1, lookupType_map_self _ _ hn]
      rfl
    rw [houtty]
  have hpr : projRows ds1.dataframe (pySetUnion req retainedCols) = ds1.dataframe.rows := by
    show ds1.dataframe.rows.map (fun r =>
        (pySetUnion req retainedCols).map (fun n => evalColD ds1.dataframe r (emittedCol ds1.dataframe n))) =
      ds1.dataframe.rows
    rw [hrows1, List.map_map]
    apply map_congr_mem
    intro r0 _
    show (pySetUnion req retainedCols).map (fun n =>
        evalColD ds1.dataframe
          ((pySetUnion req retainedCols).map (fun n2 => evalColD ds.dataframe r0 (emittedCol ds.dataframe n2)))
          (emittedCol ds1.dataframe n)) =
      (pySetUnion req retainedCols).map (fun n => evalColD ds.dataframe r0 (emittedCol ds.dataframe n))
    apply map_congr_mem
    intro n hn
    rw [hcompat n hn]
    exact evalRef_map_self ds1.dataframe (fun m => outTy ds.dataframe m)
      (fun n2 => evalColD ds.dataframe r0 (emittedCol ds.dataframe n2))
      (pySetUnion req retainedCols) n hschema1 hn
  rw [hps, hpr]

/-- Claim C6 witness: the concrete projection (which casts a boolean-array
column) is returned unchanged by a second identical projection. -/
theorem claim_C6_witness :
    Dataset.select_columns ds1W reqW = Except.ok ds1W :=
  claim_C6 dsW reqW ds1W rfl

/-- Claim C7: a successful select_columns returns a new Dataset with the
original's name, whose column set is exactly the union of the requested and
the four retained identifying columns, without duplicates.  (Projection is
non-destructive by construction: the embedding is pure and the input dataset
is not modified.) -/
theorem claim_C7 (ds : Dataset) (req : List String) (ds1 : Dataset)
    (h : Dataset.select_columns ds req = Except.ok ds1) :
    ds1.name = ds.name ∧
    (∀ c, c ∈ Dataset.columns ds1 ↔ (c ∈ req ∨ c ∈ retainedCols)) ∧
    (Dataset.columns ds1).Nodup := by
  obtain ⟨hds1, _⟩ := select_columns_ok_shape ds req ds1 h
  have hcols : Dataset.columns ds1 = pySetUnion req retainedCols := by
    rw [hds1]
    show (projSchema ds.dataframe (pySetUnion req retainedCols)).map Prod.fst = _
    simp only [projSchema, List.map_map]
    show (pySetUnion req retainedCols).map id = _
    exact List.map_id _
  refine ⟨by rw [hds1], ?_, ?_⟩
  · intro c
    rw [hcols]
    show c ∈ (req ++ retainedCols).dedup ↔ _
    rw [List.mem_dedup, List.mem_append]
  · rw [hcols]
    exact List.nodup_dedup _

/-- Claim C7 witness: concrete name preservation, column-set membership and
duplicate-freedom. -/
theorem claim_C7_witness :
    ds1W.name = dsW.name ∧
    ("E_pt" ∈ Dataset.columns ds1W ↔ ("E_pt" ∈ reqW ∨ "E_pt" ∈ retainedCols)) ∧
    (Dataset.columns ds1W).Nodup :=
  ⟨(claim_C7 dsW reqW ds1W rfl).1,
   (claim_C7 dsW reqW ds1W rfl).2.1 "E_pt",
   (claim_C7 dsW reqW ds1W rfl).2.2⟩

/-- Claim C8: requesting a column absent from the source table makes
select_columns fail with the engine's own "column not found" condition,
propagated without local recovery or translation. -/
theorem claim_C8 (ds : Dataset) (req : List String) (x : String)
    (hx : x ∈ req) (hmiss : x ∉ DataFrame.columns ds.dataframe) :
    DataFrame.select ds.dataframe ((pySetUnion req retainedCols).map Col.ref) =
      Except.error "column not found" ∧
    Dataset.select_columns ds req = Except.error "column not found" := by
  have hxL : x ∈ pySetUnion req retainedCols := by
    show x ∈ (req ++ retainedCols).dedup
    rw [List.mem_dedup, List.mem_append]
    exact Or.inl hx
  have hall : ((pySetUnion req retainedCols).map Col.ref).all
      (fun c => colResolves ds.dataframe c) = false := by
    cases hb : ((pySetUnion req retainedCols).map Col.ref).all
        (fun c => colResolves ds.dataframe c) with
    | false => rfl
    | true =>
      have h1 := List.all_eq_true.mp hb (Col.ref x) (List.mem_map_of_mem Col.ref hxL)
      have h2 : x ∈ DataFrame.columns ds.dataframe :=
        (lookupIdx_isSome_iff x ds.dataframe.schema).mp (by simpa [colResolves] using h1)
      exact absurd h2 hmiss
  have herr := select_eq_error ds.dataframe _ hall
  refine ⟨herr, ?_⟩
  unfold Dataset.select_columns
  rw [herr]

/-- Claim C8 witness: a concrete missing column makes the projection fail
with the engine's error. -/
theorem claim_C8_witness :
    Dataset.select_columns dsW ["nope"] = Except.error "column not found" :=
  (claim_C8 dsW ["nope"] "nope" (by decide) (by decide)).2
